import Mathlib

/-!
Shallow embedding of the correlation/relay engine of the
`electron-ipc-service` repository.

Sources embedded here:
- `src/core/base.ts` — `BaseIpcService`: options, `wrapChannel`, the pending
  request table (`addPendingRequest`, `resolvePendingRequest`,
  `rejectPendingRequest`, `dropAllPendingRequests`, `destroy`);
- `src/core/main.ts` — `IpcMainService`: the hub's handlers
  `handleInvokeTo`, `handleReplyTo`, `handleSendTo`;
- `src/core/renderer.ts` — `IpcRendererService`: `invoke`, `invokeTo`,
  `sendTo`, `wrapListener`;
- `src/utils/fn.ts` — `processFunction`.

Stateful code is embedded as explicit state passing over the pending table
plus an effect trace (timer operations, messages sent, promise
settlements).  A promise is denoted by the pair of its settlement time and
its outcome, and `Promise.race` by the earlier of the two settlements.
-/

namespace IpcService

/-- JavaScript values carried as opaque IPC payloads. -/
inductive JsVal where
  | undef : JsVal
  | boolean : Bool → JsVal
  | num : Int → JsVal
  | str : String → JsVal
deriving DecidableEq

/-- JavaScript `Error` objects, identified by their message. -/
structure JsError where
  message : String
deriving DecidableEq

/-- Settlement of a promise: fulfilled with a value or rejected with an error. -/
inductive Outcome where
  | ok : JsVal → Outcome
  | err : JsError → Outcome
deriving DecidableEq

/-- Options of `BaseIpcService` (src/core/base.ts lines 17-23 and
src/types/index.ts).  The constructor defaults `ipcChannelPrefix` to
`"ipc-service:"` and `pendingRequestTimeout` to `5000`; the prefix is kept
optional because `wrapChannel` guards it with `|| ''`. -/
structure IpcServiceBaseOptions where
  ipcChannelPrefix : Option String
  pendingRequestTimeout : Int

/-- Options as produced by the `BaseIpcService` constructor with no
argument: prefix `"ipc-service:"`, pending request timeout `5000`. -/
def defaultBaseOptions : IpcServiceBaseOptions :=
  ⟨some "ipc-service:", 5000⟩

/-- Channel name derivation (src/core/base.ts lines 31-33):
`${this.options.ipcChannelPrefix || ''}${channel}`. -/
def wrapChannel (opts : IpcServiceBaseOptions) (channel : String) : String :=
  (opts.ipcChannelPrefix.getD "") ++ channel

/-- Role tag of a channel.  The repository's constants module defining
`IpcChannelType` is not among the provided sources. -/
inductive IpcChannelType where
  | internal
  | external
deriving DecidableEq

/-- Modelled from the spec: the constants module with the `IpcChannelType`
string values is missing from the sources; spec §6 names the internal
control channels `internal:...` and user operation channels
`external:<operation-name>`, so the tags are `"internal"` and
`"external"`. -/
def IpcChannelType.tag : IpcChannelType → String
  | .internal => "internal"
  | .external => "external"

/-- Channel name for a role tag and an operation name, following the
template `${IpcChannelType...}:<operation>` passed to `wrapChannel`
throughout src/core/main.ts and src/core/renderer.ts. -/
def channelFor (opts : IpcServiceBaseOptions) (t : IpcChannelType)
    (op : String) : String :=
  wrapChannel opts (t.tag ++ ":" ++ op)

/-- Channel of the hub's `handleInvokeTo` handler (src/core/main.ts line 46)
and of the renderer's `invokeTo` (src/core/renderer.ts line 135). -/
def invokeToChannel (opts : IpcServiceBaseOptions) : String :=
  channelFor opts .internal "invoke-to"

/-- Channel of the hub's `handleReplyTo` handler (src/core/main.ts line 111)
and of the reply sent by `wrapListener` (src/core/renderer.ts line 66). -/
def replyToChannel (opts : IpcServiceBaseOptions) : String :=
  channelFor opts .internal "reply-to"

/-- Channel of the hub's `handleSendTo` handler (src/core/main.ts line 132)
and of the renderer's `sendTo` (src/core/renderer.ts line 159). -/
def sendToChannel (opts : IpcServiceBaseOptions) : String :=
  channelFor opts .internal "send-to"

/-- Channel of a user-defined operation: `${IpcChannelType.External}:<op>`. -/
def externalChannel (opts : IpcServiceBaseOptions) (op : String) : String :=
  channelFor opts .external op

/-- One entry of the pending request table (src/core/base.ts lines 8-15).
The stored `resolve` and `reject` continuations are identified by abstract
tokens; invoking one is recorded as an effect.  `timeout` is the timer
handle held by the entry. -/
structure PendingEntry where
  resolveTok : Nat
  rejectTok : Nat
  timeout : Nat
deriving DecidableEq

/-- The pending request table: a `Map` from request id to entry, embedded
as an association list in insertion order (JS `Map` iteration order). -/
abbrev PendingTable := List (String × PendingEntry)

/-- Relay metadata forwarded to the target peer
(src/core/main.ts lines 92-96). -/
structure RelayMeta where
  requestId : String
  webContentsId : Nat
  timeout : Int
deriving DecidableEq

/-- Observable effects of the stateful code: timer operations, invocations
of stored continuations, and messages sent over the transport. -/
inductive Effect where
  | clearTimeout : Nat → Effect
  | setTimeout : Nat → Int → Effect
  | invokeResolve : Nat → JsVal → Effect
  | invokeReject : Nat → JsError → Effect
  | sendToPeer : Nat → String → JsVal → RelayMeta → Effect
  | sendToPeerPlain : Nat → String → JsVal → Nat → Effect
  | sendReply : String → String → Option JsVal → Option JsError → Effect
deriving DecidableEq

/-- Lookup of a pending entry by request id (`Map.get`). -/
def findEntry (t : PendingTable) (id : String) : Option PendingEntry :=
  (t.find? (fun p => p.1 == id)).map (·.2)

/-- Removal of a pending entry by request id (`Map.delete`; keys are unique
in a JS `Map`, so removing every binding of the key is the same map). -/
def eraseEntry (t : PendingTable) (id : String) : PendingTable :=
  t.filter (fun p => p.1 != id)

/-- Insertion into the table (src/core/base.ts lines 42-53, `Map.set`):
overwrites in place when the key is present, appends otherwise. -/
def addPendingRequest (t : PendingTable) (id : String) (e : PendingEntry) :
    PendingTable :=
  if (t.find? (fun p => p.1 == id)).isSome then
    t.map (fun p => if p.1 == id then (id, e) else p)
  else
    t ++ [(id, e)]

/-- Generic rejection error synthesized when none is supplied
(src/core/base.ts lines 85 and 99). -/
def genericRejectError (id : String) : JsError :=
  ⟨"Request " ++ id ++ " has been reject"⟩

/-- Resolution of a pending request (src/core/base.ts lines 60-70): if the
id is present, clear its timeout, delete the entry and invoke the stored
resolve continuation; silently do nothing otherwise. -/
def resolvePendingRequest (t : PendingTable) (id : String) (data : JsVal) :
    PendingTable × List Effect :=
  match findEntry t id with
  | some e =>
    (eraseEntry t id,
      [Effect.clearTimeout e.timeout, Effect.invokeResolve e.resolveTok data])
  | none => (t, [])

/-- Rejection of a pending request (src/core/base.ts lines 77-87):
symmetric to resolution; synthesizes the generic error when none is
supplied. -/
def rejectPendingRequest (t : PendingTable) (id : String)
    (error : Option JsError) : PendingTable × List Effect :=
  match findEntry t id with
  | some e =>
    (eraseEntry t id,
      [Effect.clearTimeout e.timeout,
        Effect.invokeReject e.rejectTok (error.getD (genericRejectError id))])
  | none => (t, [])

/-- Bulk drop of all pending requests (src/core/base.ts lines 92-101):
iterate the entries in map order, clearing each timeout, deleting each
entry and rejecting it with the generic error carrying its id. -/
def dropAllPendingRequests : PendingTable → PendingTable × List Effect
  | [] => ([], [])
  | (id, e) :: rest =>
    let r := dropAllPendingRequests rest
    (r.1,
      Effect.clearTimeout e.timeout ::
        Effect.invokeReject e.rejectTok (genericRejectError id) :: r.2)

/-- Shutdown (src/core/base.ts lines 103-105): performs only the bulk
drop. -/
def destroy (t : PendingTable) : PendingTable × List Effect :=
  dropAllPendingRequests t

/-- Denotation of a promise: the time at which it settles and its
settlement.  Times are abstract ticks of the single-threaded event loop. -/
abbrev PromiseDen := Nat × Outcome

/-- Denotation of `Promise.race [p, q]`: the settlement of whichever
settles first, the first argument winning a tie (it is listed first). -/
def race (p q : PromiseDen) : Outcome :=
  if p.1 ≤ q.1 then p.2 else q.2

/-- Error raised by the renderer-side direct call timeout
(src/core/renderer.ts line 110). -/
def invokeTimeoutError : JsError :=
  ⟨"Invoke function timed out"⟩

/-- Direct call `IpcRendererService.invoke` (src/core/renderer.ts lines
97-116), given the denotation of the underlying
`ipcRenderer.invoke` call: the destructuring defaults an omitted timeout
to `0`; a positive timeout races the underlying reply against a timer
that rejects with `"Invoke function timed out"`; otherwise the underlying
settlement is awaited directly. -/
def invokeResult (timeoutOpt : Option Int) (underlying : PromiseDen) :
    Outcome :=
  let timeout := timeoutOpt.getD 0
  if 0 < timeout then
    race underlying (timeout.toNat, Outcome.err invokeTimeoutError)
  else
    underlying.2

/-- Error raised by the handler-side timeout in `processFunction`
(src/utils/fn.ts line 39). -/
def processTimeoutError : JsError :=
  ⟨"Process function timed out"⟩

/-- Function runner `processFunction` (src/utils/fn.ts lines 27-44), given
the denotation of `Promise.resolve(fn(...data))`: an omitted timeout
defaults to `0`; a positive timeout races the execution against a timer
rejecting with `"Process function timed out"`. -/
def processFunction (timeoutOpt : Option Int) (exec : PromiseDen) :
    Outcome :=
  let timeout := timeoutOpt.getD 0
  if 0 < timeout then
    race exec (timeout.toNat, Outcome.err processTimeoutError)
  else
    exec.2

/-- Projection of the `data` variable assigned by `wrapListener`
(src/core/renderer.ts lines 55-63): assigned only when `processFunction`
fulfilled. -/
def outData : Outcome → Option JsVal
  | .ok v => some v
  | .err _ => none

/-- Projection of the `rspError` variable assigned by `wrapListener`:
assigned only when `processFunction` rejected. -/
def outErr : Outcome → Option JsError
  | .ok _ => none
  | .err e => some e

/-- One invocation of a listener wrapped by `wrapListener`
(src/core/renderer.ts lines 51-72): run the listener through
`processFunction` bounded by the metadata's timeout, then send exactly one
message on the reply-relay channel carrying the original request id, the
`data` variable and the `rspError` variable. -/
def wrapListenerRun (opts : IpcServiceBaseOptions) (requestId : String)
    (timeoutOpt : Option Int) (exec : PromiseDen) : List Effect :=
  let r := processFunction timeoutOpt exec
  [Effect.sendReply (replyToChannel opts) requestId (outData r) (outErr r)]

/-- Options of `IpcMainService` (src/core/main.ts lines 18-24): the base
options plus the optional `getWebContentsId` lookup function. -/
structure IpcMainServiceOptions where
  base : IpcServiceBaseOptions
  getWebContentsId : Option (List JsVal → Option Nat)

/-- JavaScript `a || b` on an optional numeric id: `0` and `undefined` are
falsy, so both fall through to the right operand. -/
def jsOr (a : Option Nat) (b : Option Nat) : Option Nat :=
  match a with
  | some w => if w == 0 then b else some w
  | none => b

/-- Target id resolution shared by `handleInvokeTo` (src/core/main.ts
lines 66-70) and `handleSendTo` (lines 147-151):
`webContentsId || (windowParams ? this.options.getWebContentsId?.(...windowParams) : undefined)`. -/
def resolveTargetWebContentsId (getWCId : Option (List JsVal → Option Nat))
    (webContentsId : Option Nat) (windowParams : Option (List JsVal)) :
    Option Nat :=
  jsOr webContentsId
    (match windowParams with
     | some wp =>
       match getWCId with
       | some f => f wp
       | none => none
     | none => none)

/-- JavaScript falsiness of the resolved id, as tested by
`if (!targetWebContentsId)`: `undefined` and `0` are falsy. -/
def isFalsyId : Option Nat → Bool
  | none => true
  | some n => n == 0

/-- Error thrown when no usable target id was resolved
(src/core/main.ts lines 72-74 and 153-155). -/
def requiredError : JsError :=
  ⟨"webContentsId is required"⟩

/-- Error thrown when the resolved id has no live webContents
(src/core/main.ts lines 77-81 and 158-162). -/
def notFoundError (tid : Nat) : JsError :=
  ⟨"webContents with id " ++ toString tid ++ " not found"⟩

/-- Error used by the hub's relay timeout (src/core/main.ts line 87). -/
def relayTimeoutError : JsError :=
  ⟨"Request timeout"⟩

/-- Per-hub mutable state: the pending request table, the id-generator
supply (`generateId`, a fresh nanoid per call, modelled as a counter), and
the timer/promise token supply. -/
structure HubState where
  table : PendingTable
  nextId : Nat
  nextTok : Nat
deriving DecidableEq

/-- Fresh request id drawn from the generator supply. -/
def mkRequestId (n : Nat) : String :=
  "req-" ++ toString n

/-- Options object received by `handleInvokeTo` (src/core/main.ts lines
50-64): optional timeout, payload, and at least one of the two addressing
fields. -/
structure InvokeToOptions where
  timeout : Option Int
  data : JsVal
  webContentsId : Option Nat
  windowParams : Option (List JsVal)

/-- Result of the synchronous part of one `handleInvokeTo` invocation:
either an error was thrown before forwarding (and caught), or the envelope
was forwarded and a pending entry registered under the generated id with
the given timer/promise token. -/
inductive StartResult where
  | threw : JsError → StartResult
  | forwarded : String → Nat → StartResult
deriving DecidableEq

/-- Synchronous part of the hub's `handleInvokeTo` handler
(src/core/main.ts lines 44-104) up to the point where the returned promise
is pending: generate a request id, resolve the target (explicit id first,
then the lookup function), throw `"webContentsId is required"` when the
result is falsy and `"webContents with id _ not found"` when the id has no
live webContents — both throws are caught by the handler's `catch`, which
calls `rejectPendingRequest(requestId, error)` on the current table —
otherwise start the relay timer, send the payload with relay metadata
`{requestId, webContentsId: sender, timeout}` to the target, and add a
pending entry under the request id whose resolve/reject continuations
settle the handler's promise. -/
def handleInvokeToStart (opts : IpcMainServiceOptions) (live : Nat → Bool)
    (st : HubState) (senderId : Nat) (channel : String)
    (req : InvokeToOptions) : HubState × List Effect × StartResult :=
  let rid := mkRequestId st.nextId
  let st1 : HubState := { st with nextId := st.nextId + 1 }
  let wait := req.timeout.getD opts.base.pendingRequestTimeout
  let tid? := resolveTargetWebContentsId opts.getWebContentsId
    req.webContentsId req.windowParams
  if isFalsyId tid? then
    let r := rejectPendingRequest st1.table rid (some requiredError)
    ({ st1 with table := r.1 }, r.2, .threw requiredError)
  else
    let tid := tid?.getD 0
    if live tid then
      let tok := st1.nextTok
      ({ st1 with
          table := addPendingRequest st1.table rid ⟨tok, tok, tok⟩,
          nextTok := st1.nextTok + 1 },
        [Effect.setTimeout tok wait,
          Effect.sendToPeer tid channel req.data ⟨rid, senderId, wait⟩],
        .forwarded rid tok)
    else
      let r := rejectPendingRequest st1.table rid (some (notFoundError tid))
      ({ st1 with table := r.1 }, r.2, .threw (notFoundError tid))

/-- The hub's relay timer firing (src/core/main.ts lines 84-90): reject
the pending entry with `"Request timeout"`, then clear the timer's own
handle. -/
def relayTimeoutFire (t : PendingTable) (rid : String) (tok : Nat) :
    PendingTable × List Effect :=
  let r := rejectPendingRequest t rid (some relayTimeoutError)
  (r.1, r.2 ++ [Effect.clearTimeout tok])

/-- The hub's `handleReplyTo` handler (src/core/main.ts lines 109-125):
a truthy error on the reply-relay message rejects the pending entry for
the carried request id, otherwise the entry is resolved with the response
data. -/
def handleReplyTo (t : PendingTable) (requestId : String)
    (responseData : JsVal) (error : Option JsError) :
    PendingTable × List Effect :=
  match error with
  | some e => rejectPendingRequest t requestId (some e)
  | none => resolvePendingRequest t requestId responseData

/-- Options object received by `handleSendTo` (src/core/main.ts lines
136-142): payload and addressing, no timeout. -/
structure SendToOptions where
  data : JsVal
  webContentsId : Option Nat
  windowParams : Option (List JsVal)

/-- Result of one `handleSendTo` invocation: either the message was sent,
or an error was thrown (the handler's `catch` rethrows it, so it
propagates as an unhandled error at the hub). -/
inductive SendToResult where
  | sent : SendToResult
  | threw : JsError → SendToResult
deriving DecidableEq

/-- The hub's `handleSendTo` handler (src/core/main.ts lines 130-171):
identical target resolution to `handleInvokeTo`, no pending entry and no
timer; on success the payload is sent with only the sender id as
metadata; resolution failures are rethrown at the hub. -/
def handleSendTo (opts : IpcMainServiceOptions) (live : Nat → Bool)
    (senderId : Nat) (channel : String) (req : SendToOptions) :
    List Effect × SendToResult :=
  let tid? := resolveTargetWebContentsId opts.getWebContentsId
    req.webContentsId req.windowParams
  if isFalsyId tid? then
    ([], .threw requiredError)
  else
    let tid := tid?.getD 0
    if live tid then
      ([Effect.sendToPeerPlain tid channel req.data senderId], .sent)
    else
      ([], .threw (notFoundError tid))

/-- Outcome observed by the original caller awaiting `invokeTo`: the
`ipcMain.handle` callback's promise either fulfills with a value or
rejects with an error. -/
inductive CallerOutcome where
  | fulfilled : JsVal → CallerOutcome
  | rejected : JsError → CallerOutcome
deriving DecidableEq

/-- First settlement of a stored continuation appearing in an effect
trace, if any: the awaited promise of the `handleInvokeTo` callback
settles exactly when its entry's resolve or reject continuation is
invoked. -/
def settlementOf (effs : List Effect) : Option Outcome :=
  effs.findSome? fun e =>
    match e with
    | .invokeResolve _ v => some (Outcome.ok v)
    | .invokeReject _ er => some (Outcome.err er)
    | _ => none

/-- One full hub-side relay round (src/core/main.ts lines 44-125):
run the synchronous part of `handleInvokeTo`; when it threw, the `catch`
already ran and the callback returns `undefined`, so the caller's promise
fulfills with `undefined`; when it forwarded, deliver one reply-relay
message `(requestId, replyData, replyErr)` to `handleReplyTo` and settle
accordingly: a resolution makes the `return await` fulfill with the data,
while a rejection makes the `await` throw into the `catch`, which calls
`rejectPendingRequest` once more (on the table the settlement already
removed the entry from) and returns `undefined`; with no settlement the
callback's promise stays pending. -/
def relayRun (opts : IpcMainServiceOptions) (live : Nat → Bool)
    (st : HubState) (senderId : Nat) (channel : String)
    (req : InvokeToOptions) (replyData : JsVal) (replyErr : Option JsError) :
    HubState × List Effect × Option CallerOutcome :=
  match handleInvokeToStart opts live st senderId channel req with
  | (st1, effs, .threw _) =>
    (st1, effs, some (.fulfilled JsVal.undef))
  | (st1, effs, .forwarded rid _) =>
    let r := handleReplyTo st1.table rid replyData replyErr
    match settlementOf r.2 with
    | some (Outcome.ok v) =>
      ({ st1 with table := r.1 }, effs ++ r.2, some (.fulfilled v))
    | some (Outcome.err e) =>
      let r2 := rejectPendingRequest r.1 rid (some e)
      ({ st1 with table := r2.1 }, effs ++ r.2 ++ r2.2,
        some (.fulfilled JsVal.undef))
    | none =>
      ({ st1 with table := r.1 }, effs ++ r.2, none)

/-- Message emitted by the renderer's `invokeTo` (src/core/renderer.ts
lines 127-141): an `ipcRenderer.invoke` on the internal invoke-to channel
carrying the wrapped target operation channel and the options object
verbatim — the renderer generates no request id and registers no pending
entry. -/
structure RendererInvokeToSend where
  ipcChannel : String
  targetChannel : String
  options : InvokeToOptions

/-- The renderer's `invokeTo` send. -/
def rendererInvokeToSend (opts : IpcServiceBaseOptions) (channel : String)
    (o : InvokeToOptions) : RendererInvokeToSend :=
  ⟨invokeToChannel opts, externalChannel opts channel, o⟩

/-- Relay metadata of the first forwarded message in an effect trace. -/
def forwardedMeta (effs : List Effect) : Option RelayMeta :=
  effs.findSome? fun e =>
    match e with
    | .sendToPeer _ _ _ m => some m
    | _ => none

/-- Test for a forwarded relay message in an effect trace. -/
def isForwardEffect : Effect → Bool
  | .sendToPeer _ _ _ _ => true
  | .sendToPeerPlain _ _ _ _ => true
  | _ => false

/-- Test for a rejection of a stored continuation. -/
def isRejectEffect : Effect → Bool
  | .invokeReject _ _ => true
  | _ => false

/-- Lookup after removal finds nothing: `Map.delete` removes the id's
binding. -/
theorem findEntry_eraseEntry (t : PendingTable) (id : String) :
    findEntry (eraseEntry t id) id = none := by
  induction t with
  | nil => rfl
  | cons a t ih =>
    by_cases h : a.1 = id
    · simp [eraseEntry, List.filter_cons, h]
      exact ih
    · simp [eraseEntry, findEntry, List.filter_cons, h]

/-- Lookup after an overwriting `Map.set` on a present key. -/
theorem findEntry_map_update (t : PendingTable) (id : String)
    (e : PendingEntry)
    (hp : (t.find? (fun p => p.1 == id)).isSome = true) :
    findEntry (t.map (fun p => if p.1 == id then (id, e) else p)) id
      = some e := by
  induction t with
  | nil => simp at hp
  | cons a t ih =>
    by_cases h : a.1 = id
    · simp [findEntry, h]
    · simp only [List.find?_cons] at hp
      rw [show (a.1 == id) = false by simpa using h] at hp
      simpa [findEntry, h] using ih hp

/-- Lookup after an appending `Map.set` on an absent key. -/
theorem findEntry_append_fresh (t : PendingTable) (id : String)
    (e : PendingEntry)
    (hp : t.find? (fun p => p.1 == id) = none) :
    findEntry (t ++ [(id, e)]) id = some e := by
  induction t with
  | nil => simp [findEntry]
  | cons a t ih =>
    by_cases h : a.1 = id
    · simp [List.find?_cons, h] at hp
    · simp only [List.find?_cons] at hp
      rw [show (a.1 == id) = false by simpa using h] at hp
      simpa [findEntry, List.cons_append, h] using ih hp

/-- Lookup after insertion finds the inserted entry: `Map.set` followed by
`Map.get` on the same key. -/
theorem findEntry_addPendingRequest (t : PendingTable) (id : String)
    (e : PendingEntry) :
    findEntry (addPendingRequest t id e) id = some e := by
  unfold addPendingRequest
  by_cases hp : (t.find? (fun p => p.1 == id)).isSome
  · simpa [hp] using findEntry_map_update t id e hp
  · have hn : t.find? (fun p => p.1 == id) = none :=
      Option.not_isSome_iff_eq_none.mp hp
    simpa [hp] using findEntry_append_fresh t id e hn

/-- C4: for every request id, a pending entry is settled at most once: the
first `resolvePendingRequest` or `rejectPendingRequest` for a present id
cancels its timeout, removes the entry and invokes the stored
continuation (a missing error is replaced by the generic rejection
carrying the id), and any later resolve or reject attempt for the same id
leaves the table unchanged and produces no effect. -/
theorem pendingEntry_settled_at_most_once (t : PendingTable) (id : String)
    (e : PendingEntry) (d d' : JsVal) (er : JsError) (er' : Option JsError)
    (hpres : findEntry t id = some e) :
    resolvePendingRequest t id d =
      (eraseEntry t id,
        [Effect.clearTimeout e.timeout, Effect.invokeResolve e.resolveTok d])
    ∧ rejectPendingRequest t id (some er) =
      (eraseEntry t id,
        [Effect.clearTimeout e.timeout, Effect.invokeReject e.rejectTok er])
    ∧ rejectPendingRequest t id none =
      (eraseEntry t id,
        [Effect.clearTimeout e.timeout,
          Effect.invokeReject e.rejectTok (genericRejectError id)])
    ∧ findEntry (eraseEntry t id) id = none
    ∧ resolvePendingRequest (eraseEntry t id) id d' = (eraseEntry t id, [])
    ∧ rejectPendingRequest (eraseEntry t id) id er' = (eraseEntry t id, []) := by
  refine ⟨?_, ?_, ?_, findEntry_eraseEntry t id, ?_, ?_⟩ <;>
    simp [resolvePendingRequest, rejectPendingRequest, hpres,
      findEntry_eraseEntry]

/-- Witness for C4 at a concrete one-entry table. -/
theorem pendingEntry_settled_at_most_once_witness :
    resolvePendingRequest [("a", (⟨1, 2, 3⟩ : PendingEntry))] "a" JsVal.undef
      = (([] : PendingTable),
        [Effect.clearTimeout 3, Effect.invokeResolve 1 JsVal.undef]) :=
  (pendingEntry_settled_at_most_once [("a", ⟨1, 2, 3⟩)] "a" ⟨1, 2, 3⟩
    JsVal.undef JsVal.undef ⟨"x"⟩ none (by decide)).1

/-- C7: `dropAllPendingRequests` empties the table, emits per entry (in
map order) a timeout cancellation followed by a rejection with the generic
request-rejected error carrying the entry's id, rejects exactly as many
entries as the table held, is a no-op when called again or on an empty
table, and `destroy` performs only this bulk drop. -/
theorem dropAllPendingRequests_spec (t : PendingTable) :
    (dropAllPendingRequests t).1 = []
    ∧ (dropAllPendingRequests t).2 =
      t.foldr (fun p acc =>
        Effect.clearTimeout p.2.timeout ::
          Effect.invokeReject p.2.rejectTok (genericRejectError p.1) :: acc) []
    ∧ ((dropAllPendingRequests t).2.filter isRejectEffect).length = t.length
    ∧ dropAllPendingRequests (dropAllPendingRequests t).1 = ([], [])
    ∧ dropAllPendingRequests ([] : PendingTable) = ([], [])
    ∧ destroy t = dropAllPendingRequests t := by
  have h1 : ∀ s : PendingTable, (dropAllPendingRequests s).1 = [] := by
    intro s
    induction s with
    | nil => rfl
    | cons a s ih => simpa [dropAllPendingRequests] using ih
  have h2 : (dropAllPendingRequests t).2 =
      t.foldr (fun p acc =>
        Effect.clearTimeout p.2.timeout ::
          Effect.invokeReject p.2.rejectTok (genericRejectError p.1) :: acc) [] := by
    induction t with
    | nil => rfl
    | cons a t ih => simpa [dropAllPendingRequests] using ih
  have h3 : ((dropAllPendingRequests t).2.filter isRejectEffect).length
      = t.length := by
    clear h2
    induction t with
    | nil => rfl
    | cons a t ih =>
      simpa [dropAllPendingRequests, List.filter_cons, isRejectEffect]
        using ih
  refine ⟨h1 t, h2, h3, ?_, rfl, rfl⟩
  rw [h1 t]
  rfl

/-- C5: for every direct call with a positive timeout whose underlying
reply settles strictly after the timeout, the caller observes the
rejection with message "Invoke function timed out"; the reply's own
settlement, arriving late, does not alter the already-settled result
(the result is the same whatever the late reply was). -/
theorem invoke_timeout_wins (timeout : Int) (replyTime : Nat)
    (o o' : Outcome) (h1 : 0 < timeout) (h2 : timeout.toNat < replyTime) :
    invokeResult (some timeout) (replyTime, o)
      = Outcome.err invokeTimeoutError
    ∧ invokeResult (some timeout) (replyTime, o)
      = invokeResult (some timeout) (replyTime, o') := by
  have hle : ¬ replyTime ≤ timeout.toNat := Nat.not_le.mpr h2
  constructor <;> simp [invokeResult, race, h1, hle]

/-- Witness for C5: a 50-unit timeout against a reply arriving at 200. -/
theorem invoke_timeout_wins_witness :
    invokeResult (some 50) (200, Outcome.ok (JsVal.boolean true))
      = Outcome.err invokeTimeoutError :=
  (invoke_timeout_wins 50 200 (Outcome.ok (JsVal.boolean true))
    (Outcome.ok JsVal.undef) (by decide) (by decide)).1

/-- C10: for every direct `invoke` call and every `processFunction`
invocation whose timeout is omitted (defaulting to 0), zero or negative,
no timeout race is installed: the result is exactly the underlying
operation's settlement, whenever that settles and whatever it is — in
particular the call never rejects with a timed-out error the underlying
operation did not itself produce. -/
theorem nonpositive_timeout_no_race (timeoutOpt : Option Int)
    (u e : PromiseDen) (h : timeoutOpt.getD 0 ≤ 0) :
    invokeResult timeoutOpt u = u.2
    ∧ processFunction timeoutOpt e = e.2 := by
  have hn : ¬ 0 < timeoutOpt.getD 0 := Int.not_lt.mpr h
  constructor <;> simp [invokeResult, processFunction, hn]

/-- Witness for C10: an omitted timeout and a reply settling at 200. -/
theorem nonpositive_timeout_no_race_witness :
    invokeResult none (200, Outcome.ok (JsVal.num 7))
      = Outcome.ok (JsVal.num 7) :=
  (nonpositive_timeout_no_race none (200, Outcome.ok (JsVal.num 7))
    (0, Outcome.ok JsVal.undef) (by decide)).1

/-- C6: every invocation of a listener wrapped by `wrapListener` sends
exactly one message on the reply-relay channel, tagged with the original
request id, whose payload is the `data`/`rspError` pair of the listener's
execution under `processFunction` bounded by the metadata's timeout; the
pair carries the settled result or the caught error, and never both and
never neither. -/
theorem wrapListener_exactly_one_reply (opts : IpcServiceBaseOptions)
    (requestId : String) (timeoutOpt : Option Int) (exec : PromiseDen) :
    wrapListenerRun opts requestId timeoutOpt exec
      = [Effect.sendReply (replyToChannel opts) requestId
          (outData (processFunction timeoutOpt exec))
          (outErr (processFunction timeoutOpt exec))]
    ∧ (outData (processFunction timeoutOpt exec) = none
        ∨ outErr (processFunction timeoutOpt exec) = none)
    ∧ ((outData (processFunction timeoutOpt exec)).isSome
        ∨ (outErr (processFunction timeoutOpt exec)).isSome) := by
  refine ⟨rfl, ?_, ?_⟩ <;>
    cases processFunction timeoutOpt exec <;> simp [outData, outErr]

/-- C8: `wrapChannel` is a total function of the configuration and the
input (the definition itself carries no state and no failure mode), and
the derived channel-name scheme is injective over distinct
(role, operation) pairs: equal derived names under the same configuration
force the same role tag and the same operation name — in particular an
internal control channel never coincides with an external user-operation
channel. -/
theorem channelFor_injective (opts : IpcServiceBaseOptions)
    (t1 t2 : IpcChannelType) (op1 op2 : String)
    (h : channelFor opts t1 op1 = channelFor opts t2 op2) :
    t1 = t2 ∧ op1 = op2 := by
  have hd := congrArg String.data h
  simp only [channelFor, wrapChannel, String.data_append] at hd
  have ha := List.append_cancel_left hd
  cases t1 <;> cases t2
  · exact ⟨rfl, String.ext (List.append_inj ha (by decide)).2⟩
  · exact absurd (List.append_inj ha (by decide)).1 (by decide)
  · exact absurd (List.append_inj ha (by decide)).1 (by decide)
  · exact ⟨rfl, String.ext (List.append_inj ha (by decide)).2⟩

/-- Witness for C8 at a concrete pair of equal channel names. -/
theorem channelFor_injective_witness :
    IpcChannelType.internal = IpcChannelType.internal ∧ "ping" = "ping" :=
  channelFor_injective defaultBaseOptions .internal .internal "ping" "ping"
    rfl

/-- C9 counterexample: under the default configuration none of the three
internal control channels is named as the claim states — the forward
channel is not named after "forward-to-peer" at all, and all three carry
the configured prefix. -/
theorem internal_channel_names_cex :
    invokeToChannel defaultBaseOptions ≠ "internal:forward-to-peer"
    ∧ replyToChannel defaultBaseOptions ≠ "internal:reply-to"
    ∧ sendToChannel defaultBaseOptions ≠ "internal:send-to" := by decide

/-- C9 amended: the hub's fixed internal control channels are
`internal:invoke-to` (the request/acknowledge forward channel),
`internal:reply-to` and `internal:send-to`, each prefixed by the
configured channel prefix; under the default prefix the full names are
`ipc-service:internal:invoke-to`, `ipc-service:internal:reply-to` and
`ipc-service:internal:send-to`. -/
theorem internal_channel_names_actual :
    invokeToChannel defaultBaseOptions = "ipc-service:internal:invoke-to"
    ∧ replyToChannel defaultBaseOptions = "ipc-service:internal:reply-to"
    ∧ sendToChannel defaultBaseOptions = "ipc-service:internal:send-to" := by
  decide

/-- C2 counterexample: the request id delivered in the target's relay
metadata is not generated by the caller — with the identical caller
message (same channel, same options, same sender), two hub states that
differ only in the hub's id-generator supply forward different request
ids, so the id is chosen by the hub on receipt; the renderer's `invokeTo`
itself transmits the options verbatim with no request id attached. -/
theorem requestId_not_generated_by_caller :
    forwardedMeta (handleInvokeToStart ⟨defaultBaseOptions, none⟩
        (fun _ => true) ⟨[], 0, 0⟩ 7 "c"
        ⟨none, JsVal.undef, some 2, none⟩).2.1
      ≠ forwardedMeta (handleInvokeToStart ⟨defaultBaseOptions, none⟩
        (fun _ => true) ⟨[], 5, 0⟩ 7 "c"
        ⟨none, JsVal.undef, some 2, none⟩).2.1 := by
  decide

/-- C2 amended: for every relayed call that reaches the forwarding step,
the request id generated by the hub on receipt is the single correlation
key of the round trip: it is the id in the relay metadata delivered to
the target, the key of the hub's pending entry, and the id that a
reply-relay message must carry to settle that entry — such a reply
settles it with the carried data (or rejects it with the carried
error). -/
theorem hub_requestId_roundtrip (opts : IpcMainServiceOptions)
    (live : Nat → Bool) (st : HubState) (senderId : Nat) (channel : String)
    (req : InvokeToOptions) (st' : HubState) (effs : List Effect)
    (rid : String) (tok : Nat) (d : JsVal) (e : JsError)
    (hstart : handleInvokeToStart opts live st senderId channel req
      = (st', effs, .forwarded rid tok)) :
    rid = mkRequestId st.nextId
    ∧ forwardedMeta effs
      = some ⟨rid, senderId, req.timeout.getD opts.base.pendingRequestTimeout⟩
    ∧ findEntry st'.table rid = some ⟨tok, tok, tok⟩
    ∧ settlementOf (handleReplyTo st'.table rid d none).2
      = some (Outcome.ok d)
    ∧ settlementOf (handleReplyTo st'.table rid d (some e)).2
      = some (Outcome.err e) := by
  simp only [handleInvokeToStart] at hstart
  by_cases hf : isFalsyId (resolveTargetWebContentsId opts.getWebContentsId
      req.webContentsId req.windowParams)
  · rw [if_pos hf] at hstart
    simp at hstart
  · rw [if_neg hf] at hstart
    by_cases hl : live ((resolveTargetWebContentsId opts.getWebContentsId
        req.webContentsId req.windowParams).getD 0)
    · rw [if_pos hl] at hstart
      simp only [Prod.mk.injEq, StartResult.forwarded.injEq] at hstart
      obtain ⟨hst, heffs, hrid, htok⟩ := hstart
      subst hst
      subst heffs
      subst hrid
      subst htok
      have hfind := findEntry_addPendingRequest st.table
        (mkRequestId st.nextId)
        (⟨st.nextTok, st.nextTok, st.nextTok⟩ : PendingEntry)
      refine ⟨rfl, by simp [forwardedMeta, List.findSome?], hfind, ?_, ?_⟩
      · simp [handleReplyTo, resolvePendingRequest, hfind, settlementOf,
          List.findSome?]
      · simp [handleReplyTo, rejectPendingRequest, hfind, settlementOf,
          List.findSome?]
    · rw [if_neg hl] at hstart
      simp at hstart

/-- Witness for C2's amended round-trip at a concrete forwarded call. -/
theorem hub_requestId_roundtrip_witness :
    forwardedMeta [Effect.setTimeout 0 5000,
      Effect.sendToPeer 2 "c" JsVal.undef ⟨"req-0", 7, 5000⟩]
      = some ⟨"req-0", 7, 5000⟩ :=
  (hub_requestId_roundtrip ⟨defaultBaseOptions, none⟩ (fun _ => true)
    ⟨[], 0, 0⟩ 7 "c" ⟨none, JsVal.undef, some 2, none⟩
    ⟨[("req-0", ⟨0, 0, 0⟩)], 1, 1⟩
    [Effect.setTimeout 0 5000,
      Effect.sendToPeer 2 "c" JsVal.undef ⟨"req-0", 7, 5000⟩]
    "req-0" 0 JsVal.undef ⟨"x"⟩ (by decide)).2.1

/-- C1 (evidence of the code bug): no relay failure surfaces as a
rejection of the original caller's awaited result.  With no resolvable
target, `handleInvokeTo` throws before forwarding, the `catch` calls
`rejectPendingRequest` on an id that has no entry (a silent no-op) and
returns `undefined`, so the caller's promise fulfills with `undefined`
and no message is sent.  When a forwarded call's reply carries a handler
error, the rejection of the hub's pending entry makes the awaited promise
throw into the same `catch`, whose second `rejectPendingRequest` is again
a no-op on the already-removed entry, and the caller's promise again
fulfills with `undefined`.  The relay timer's rejection travels the same
swallowed path. -/
theorem relay_failures_not_surfaced :
    relayRun ⟨defaultBaseOptions, none⟩ (fun _ => false) ⟨[], 0, 0⟩ 3
        "ipc-service:external:ping" ⟨none, JsVal.undef, none, none⟩
        JsVal.undef none
      = (⟨[], 1, 0⟩, [], some (CallerOutcome.fulfilled JsVal.undef))
    ∧ relayRun ⟨defaultBaseOptions, none⟩ (fun _ => true) ⟨[], 0, 0⟩ 3
        "ipc-service:external:ping" ⟨none, JsVal.undef, some 2, none⟩
        JsVal.undef (some ⟨"handler failed"⟩)
      = (⟨[], 1, 1⟩,
        [Effect.setTimeout 0 5000,
          Effect.sendToPeer 2 "ipc-service:external:ping" JsVal.undef
            ⟨"req-0", 3, 5000⟩,
          Effect.clearTimeout 0,
          Effect.invokeReject 0 ⟨"handler failed"⟩],
        some (CallerOutcome.fulfilled JsVal.undef))
    ∧ relayTimeoutFire [("req-0", ⟨0, 0, 0⟩)] "req-0" 0
      = ([], [Effect.clearTimeout 0,
          Effect.invokeReject 0 relayTimeoutError, Effect.clearTimeout 0])
    ∧ rejectPendingRequest ([] : PendingTable) "req-0"
        (some relayTimeoutError) = ([], []) := by
  decide

/-- C3 (evidence of the code bug): with neither an explicit target id nor
a lookup result, both relay paths throw the `"webContentsId is required"`
error and forward nothing; but on the `invokeTo` path the hub swallows
the error and the caller's awaited promise fulfills with `undefined`
instead of rejecting, while on the `sendTo` path the error is rethrown at
the hub. -/
theorem target_unresolved_behaviour :
    handleInvokeToStart ⟨defaultBaseOptions, some (fun _ => none)⟩
        (fun _ => true) ⟨[], 0, 0⟩ 4 "ipc-service:external:testSub"
        ⟨none, JsVal.num 7, none, some [JsVal.str "sub"]⟩
      = (⟨[], 1, 0⟩, [], .threw requiredError)
    ∧ requiredError.message = "webContentsId is required"
    ∧ relayRun ⟨defaultBaseOptions, some (fun _ => none)⟩ (fun _ => true)
        ⟨[], 0, 0⟩ 4 "ipc-service:external:testSub"
        ⟨none, JsVal.num 7, none, some [JsVal.str "sub"]⟩ JsVal.undef none
      = (⟨[], 1, 0⟩, [], some (CallerOutcome.fulfilled JsVal.undef))
    ∧ handleSendTo ⟨defaultBaseOptions, some (fun _ => none)⟩
        (fun _ => true) 4 "ipc-service:external:testSub"
        ⟨JsVal.num 7, none, some [JsVal.str "sub"]⟩
      = ([], SendToResult.threw requiredError) := by
  decide

end IpcService
